import Mathlib

/-!
Verification of the transactions-dashboard pipeline (src/app.py).

The program reads two CSV sources (status counts and auth-code counts),
casts columns through DuckDB (`CAST(... AS TIMESTAMP)`, `CAST(... AS BIGINT)`),
builds an organized view by a SQL query
(`FROM t LEFT JOIN a00 USING (ts) GROUP BY t.ts, a00.auth_00_count ORDER BY t.ts`),
guards against empty tables, applies a time-window filter
(`ts >= max_ts - duration`), and computes KPI metrics.

Timestamps are modelled as `Int` (an instant on a discrete clock), counts as
`Int` (DuckDB BIGINT).
-/

namespace TxDashboard

/-- A typed row of the status source: `SELECT CAST(timestamp AS TIMESTAMP) AS ts,
status, CAST(count AS BIGINT) AS count` (src/app.py lines 49-56). -/
structure StatusRow where
  ts : Int
  status : String
  count : Int
deriving DecidableEq

/-- A typed row of the auth-code source (src/app.py lines 58-65). -/
structure AuthRow where
  ts : Int
  auth_code : String
  count : Int
deriving DecidableEq

/-- A row of the organized view produced by the SQL query at src/app.py
lines 68-95: six fixed status sums plus the joined `auth_00_count`
(nullable, hence `Option Int`). -/
structure OrganizedRow where
  ts : Int
  approved : Int
  denied : Int
  reversed : Int
  backend_reversed : Int
  failed : Int
  refunded : Int
  auth_00_count : Option Int
deriving DecidableEq

/-! ### Source Reader (src/app.py lines 49-65)

A raw CSV cell either carries a value that the DuckDB `CAST` accepts
(`intLit` for a well-formed integer literal, `timestampLit` for a parseable
timestamp) or is malformed text on which the `CAST` fails.  A failing cast
aborts the whole query, so loading is strict: one bad row fails the load. -/

inductive RawCell where
  | intLit (n : Int)
  | timestampLit (t : Int)
  | malformed (s : String)
deriving DecidableEq

/-- `CAST(cell AS BIGINT)`: succeeds exactly on well-formed integer literals,
with no sign restriction. -/
def castBigint : RawCell → Except String Int
  | .intLit n => .ok n
  | _ => .error "ParseError: cannot cast to BIGINT"

/-- `CAST(cell AS TIMESTAMP)`: succeeds exactly on parseable timestamps. -/
def castTimestamp : RawCell → Except String Int
  | .timestampLit t => .ok t
  | _ => .error "ParseError: cannot cast to TIMESTAMP"

/-- A raw CSV row of the status source before casting. -/
structure RawStatusRow where
  timestamp : RawCell
  status : String
  count : RawCell
deriving DecidableEq

/-- Cast one status row (the two `CAST`s of src/app.py lines 51-53). -/
def parseStatusRow (r : RawStatusRow) : Except String StatusRow := do
  let ts ← castTimestamp r.timestamp
  let c ← castBigint r.count
  pure ⟨ts, r.status, c⟩

/-- Load the status source: every row is cast, and a single failing cast
fails the whole load (DuckDB aborts the query). -/
def load_status : List RawStatusRow → Except String (List StatusRow)
  | [] => .ok []
  | r :: rs => do
    let row ← parseStatusRow r
    let rest ← load_status rs
    pure (row :: rest)

/-! ### Aggregator/Joiner: the organized view (src/app.py lines 68-95) -/

/-- `a00 AS (SELECT ts, count AS auth_00_count FROM ac WHERE auth_code = '00')`:
the auth-code-00 subseries as (ts, count) pairs. -/
def a00Of (auth : List AuthRow) : List (Int × Int) :=
  (auth.filter (fun a => decide (a.auth_code = "00"))).map (fun a => (a.ts, a.count))

/-- One status row joined against the a00 subseries: it is paired with every
a00 row of equal timestamp, or with NULL when none matches. -/
def joinRow (auth : List AuthRow) (t : StatusRow) : List (StatusRow × Option Int) :=
  let m := (a00Of auth).filter (fun p => decide (p.1 = t.ts))
  if m.isEmpty then [(t, none)] else m.map (fun p => (t, some p.2))

/-- `FROM t LEFT JOIN a00 USING (ts)`. -/
def joinedOf (status : List StatusRow) (auth : List AuthRow) :
    List (StatusRow × Option Int) :=
  status.flatMap (joinRow auth)

/-- The `GROUP BY t.ts, a00.auth_00_count` key of a joined row. -/
def keyOf (r : StatusRow × Option Int) : Int × Option Int := (r.1.ts, r.2)

/-- The distinct group keys occurring in the join result. -/
def groupKeys (j : List (StatusRow × Option Int)) : List (Int × Option Int) :=
  (j.map keyOf).dedup

/-- `SUM(CASE WHEN t.status = name THEN t.count ELSE 0 END)` over a group. -/
def colSum (name : String) (grp : List (StatusRow × Option Int)) : Int :=
  (grp.map (fun r => if r.1.status = name then r.1.count else 0)).sum

/-- Build the organized row of one group key. -/
def mkRow (j : List (StatusRow × Option Int)) (k : Int × Option Int) : OrganizedRow :=
  let grp := j.filter (fun r => decide (keyOf r = k))
  { ts := k.1
    approved := colSum "approved" grp
    denied := colSum "denied" grp
    reversed := colSum "reversed" grp
    backend_reversed := colSum "backend_reversed" grp
    failed := colSum "failed" grp
    refunded := colSum "refunded" grp
    auth_00_count := k.2 }

/-- Ordering used by `ORDER BY t.ts`: ascending timestamp. -/
def rowLE (x y : OrganizedRow) : Prop := x.ts ≤ y.ts

instance : DecidableRel rowLE := fun x y => Int.decLe x.ts y.ts

instance : IsTotal OrganizedRow rowLE := ⟨fun x y => Int.le_total x.ts y.ts⟩

instance : IsTrans OrganizedRow rowLE := ⟨fun _ _ _ h h2 => le_trans h h2⟩

/-- The organized view: join, group, aggregate, sort (src/app.py lines 68-95). -/
def organizedView (status : List StatusRow) (auth : List AuthRow) : List OrganizedRow :=
  let j := joinedOf status auth
  List.insertionSort rowLE ((groupKeys j).map (mkRow j))

/-! ### Empty guard and Window Filter (src/app.py lines 109-130) -/

/-- The three derived tables returned by `load_data`. -/
structure Tables where
  df_status : List StatusRow
  df_auth : List AuthRow
  organized_df : List OrganizedRow
deriving DecidableEq

/-- The window selector offered by the UI (src/app.py lines 30-34). -/
inductive WindowChoice where
  | m15
  | h1
  | h6
  | all
deriving DecidableEq

/-- The duration subtracted from `max_ts` for each bounded selector, in
seconds (`timedelta(minutes=15)`, `timedelta(hours=1)`, `timedelta(hours=6)`);
`none` for the unbounded selector (src/app.py lines 115-122). -/
def windowDuration : WindowChoice → Option Int
  | .m15 => some (15 * 60)
  | .h1 => some 3600
  | .h6 => some (6 * 3600)
  | .all => none

/-- Maximum of a list of timestamps; only ever applied to non-empty lists
(the empty-table guard at src/app.py lines 109-111 runs first), the `[]`
value is an unused default. -/
def tsMaxD : List Int → Int
  | [] => 0
  | x :: xs => xs.foldl max x

/-- `max_ts = max(df_status["ts"].max(), df_auth["ts"].max())`
(src/app.py line 114). -/
def maxTsOf (s : List StatusRow) (a : List AuthRow) : Int :=
  max (tsMaxD (s.map (fun r => r.ts))) (tsMaxD (a.map (fun r => r.ts)))

/-- The time-window filter (src/app.py lines 113-130): for a bounded
selector, keep rows with `ts >= start_ts`; the unbounded selector leaves
all three tables untouched. -/
def applyWindow (w : WindowChoice) (tb : Tables) : Tables :=
  match windowDuration w with
  | none => tb
  | some d =>
    let start_ts := maxTsOf tb.df_status tb.df_auth - d
    { df_status := tb.df_status.filter (fun r => decide (start_ts ≤ r.ts))
      df_auth := tb.df_auth.filter (fun r => decide (start_ts ≤ r.ts))
      organized_df := tb.organized_df.filter (fun r => decide (start_ts ≤ r.ts)) }

/-- The post-load pipeline stage: the empty-table guard
(`if df_status.empty or df_auth.empty: st.stop()`, src/app.py lines 109-111)
short-circuits to a no-data state (`none`) before any windowing. -/
def pipelineWindow (w : WindowChoice) (tb : Tables) : Option Tables :=
  if tb.df_status.isEmpty || tb.df_auth.isEmpty then none
  else some (applyWindow w tb)

/-! ### KPIs (src/app.py lines 133-145) -/

/-- `total_tx = int(df_status["count"].sum())`. -/
def total_tx (s : List StatusRow) : Int :=
  (s.map (fun r => r.count)).sum

/-- `approved_total = int(df_status.query("status == 'approved'")["count"].sum())`. -/
def approved_total (s : List StatusRow) : Int :=
  ((s.filter (fun r => decide (r.status = "approved"))).map (fun r => r.count)).sum

/-- `approval_rate = (approved_total / total_tx * 100.0) if total_tx else 0.0`
(src/app.py line 144), over exact rationals. -/
def approval_rate (s : List StatusRow) : ℚ :=
  if total_tx s ≠ 0 then (approved_total s : ℚ) / (total_tx s : ℚ) * 100 else 0

/-! ### Cache Layer -/

/-- A cache entry as in the spec data model: source identity, creation
instant, payload. -/
structure CacheEntry where
  source_identity : String × String
  computed_at : Int
  payload : Tables

/-- Result of one cached call: the returned payload, the cache state after
the call, and whether the underlying reader ran. -/
structure CacheResult where
  payload : Tables
  state : Option CacheEntry
  readerRan : Bool

/-- Modelled from the spec: the Cache Layer of `load_data` is the
`st.cache_data(ttl=5)` decorator (src/app.py line 40), library code outside
this repository.  Per the spec contract: if a non-expired entry
(`now - computed_at < ttl`) exists for the same source identity, return its
payload unchanged without re-reading; otherwise run the reader, store the
result with `computed_at = now`, and return it. -/
def get_or_compute (ttl now : Int) (key : String × String)
    (reader : Unit → Tables) (st : Option CacheEntry) : CacheResult :=
  match st with
  | some e =>
    if e.source_identity = key ∧ now - e.computed_at < ttl then
      ⟨e.payload, some e, false⟩
    else
      ⟨reader (), some ⟨key, now, reader ()⟩, true⟩
  | none => ⟨reader (), some ⟨key, now, reader ()⟩, true⟩

/-! ### Derived notions used in the statements -/

/-- Sum of the six fixed status columns of an organized row. -/
def sixSum (r : OrganizedRow) : Int :=
  r.approved + r.denied + r.reversed + r.backend_reversed + r.failed + r.refunded

/-- Contribution of one status row to the six fixed columns: its count if
its status is one of the six enumerated ones, 0 otherwise, written as the
sum of the six CASE indicators. -/
def contrib (t : StatusRow) : Int :=
  (if t.status = "approved" then t.count else 0) +
  (if t.status = "denied" then t.count else 0) +
  (if t.status = "reversed" then t.count else 0) +
  (if t.status = "backend_reversed" then t.count else 0) +
  (if t.status = "failed" then t.count else 0) +
  (if t.status = "refunded" then t.count else 0)

/-- The six fixed status categories of the organized view. -/
def fixedStatuses : List String :=
  ["approved", "denied", "reversed", "backend_reversed", "failed", "refunded"]

/-- The raw auth rows with code 00 at a given timestamp. -/
def auth00At (a : List AuthRow) (ts : Int) : List AuthRow :=
  a.filter (fun x => decide (x.auth_code = "00" ∧ x.ts = ts))

/-! ### General summation helpers -/

lemma sum_map_add_split (l : List α) (f g : α → Int) :
    (l.map (fun x => f x + g x)).sum = (l.map f).sum + (l.map g).sum := by
  induction l with
  | nil => simp
  | cons x l ih => simp only [List.map_cons, List.sum_cons, ih]; ring

lemma sum_if_eq_zero [DecidableEq κ] (ks : List κ) (k : κ) (c : Int)
    (hk : k ∉ ks) : (ks.map (fun x => if x = k then c else 0)).sum = 0 := by
  induction ks with
  | nil => simp
  | cons x ks ih =>
    simp only [List.mem_cons, not_or] at hk
    simp only [List.map_cons, List.sum_cons, ih hk.2]
    rw [if_neg (fun h => hk.1 h.symm)]
    ring

lemma sum_if_eq [DecidableEq κ] (ks : List κ) (k : κ) (c : Int)
    (hnd : ks.Nodup) (hk : k ∈ ks) :
    (ks.map (fun x => if x = k then c else 0)).sum = c := by
  induction ks with
  | nil => cases hk
  | cons x ks ih =>
    rw [List.nodup_cons] at hnd
    rcases List.mem_cons.mp hk with h | h
    · simp only [List.map_cons, List.sum_cons, if_pos h.symm]
      rw [sum_if_eq_zero ks k c (h ▸ hnd.1)]
      ring
    · have hx : x ≠ k := fun he => hnd.1 (he ▸ h)
      simp only [List.map_cons, List.sum_cons, if_neg hx, ih hnd.2 h]
      ring

/-- Summing group-by-key sums over a duplicate-free covering key list gives
the total sum. -/
lemma sum_keyGroups [DecidableEq κ] (l : List α) (key : α → κ) (f : α → Int)
    (ks : List κ) (hnd : ks.Nodup) (hcov : ∀ r ∈ l, key r ∈ ks) :
    (ks.map (fun k => ((l.filter (fun r => decide (key r = k))).map f).sum)).sum
      = (l.map f).sum := by
  induction l with
  | nil => simp
  | cons a l ih =>
    have hcov' : ∀ r ∈ l, key r ∈ ks := fun r hr => hcov r (List.mem_cons_of_mem a hr)
    have step : ∀ k ∈ ks,
        (((a :: l).filter (fun r => decide (key r = k))).map f).sum
          = (if k = key a then f a else 0)
            + ((l.filter (fun r => decide (key r = k))).map f).sum := by
      intro k _
      by_cases h : key a = k
      · rw [List.filter_cons_of_pos (by simp [h]), if_pos h.symm]
        simp
      · rw [List.filter_cons_of_neg (by simp [h]), if_neg (fun he => h he.symm)]
        ring
    rw [List.map_congr_left step, sum_map_add_split,
      sum_if_eq ks (key a) (f a) hnd (hcov a (List.mem_cons_self a l)),
      ih hcov']
    simp

/-- If mapping `f` over `l` gives no duplicates, at most one element of `l`
has a given `f`-value. -/
lemma filter_length_le_one [DecidableEq κ] (l : List α) (f : α → κ)
    (hnd : (l.map f).Nodup) (c : κ) :
    (l.filter (fun x => decide (f x = c))).length ≤ 1 := by
  induction l with
  | nil => simp
  | cons x l ih =>
    rw [List.map_cons, List.nodup_cons] at hnd
    by_cases h : f x = c
    · rw [List.filter_cons_of_pos (by simp [h])]
      have : l.filter (fun y => decide (f y = c)) = [] := by
        rw [List.filter_eq_nil_iff]
        intro y hy
        simp only [decide_eq_true_eq]
        intro he
        exact hnd.1 (h ▸ he ▸ List.mem_map_of_mem f hy)
      simp [this]
    · rw [List.filter_cons_of_neg (by simp [h])]
      exact ih hnd.2

/-! ### Structure of the join and the grouped rows -/

lemma mem_joinRow_fst (a : List AuthRow) (t : StatusRow) :
    ∀ r ∈ joinRow a t, r.1 = t := by
  intro r hr
  simp only [joinRow] at hr
  by_cases h : ((a00Of a).filter (fun p => decide (p.1 = t.ts))).isEmpty
  · rw [if_pos h] at hr
    simp only [List.mem_singleton] at hr
    rw [hr]
  · rw [if_neg h] at hr
    obtain ⟨p, _, he⟩ := List.mem_map.mp hr
    rw [← he]

/-- When the a00 series has at most one row per timestamp, each status row
produces exactly one joined row, so summing any function of the status side
over its join image gives that function once. -/
lemma joinRow_map_fst_sum (a : List AuthRow) (t : StatusRow)
    (H1 : ((a00Of a).map Prod.fst).Nodup) (g : StatusRow → Int) :
    ((joinRow a t).map (fun r => g r.1)).sum = g t := by
  have hlen := filter_length_le_one (a00Of a) Prod.fst H1 t.ts
  simp only [joinRow]
  rcases hmm : (a00Of a).filter (fun p => decide (p.1 = t.ts)) with _ | ⟨p, rest⟩
  · rw [hmm]
    simp
  · rw [hmm] at hlen
    have hrest : rest = [] := by
      cases rest with
      | nil => rfl
      | cons q qs => simp at hlen
    subst hrest
    rw [hmm]
    simp

/-- Summing a function of the status side over the filtered join equals
summing it over the filtered status table, given at most one a00 row per
timestamp. -/
lemma flatMap_filter_sum (a : List AuthRow)
    (H1 : ((a00Of a).map Prod.fst).Nodup)
    (g : StatusRow → Int) (p : StatusRow → Bool) :
    ∀ s : List StatusRow,
      (((s.flatMap (joinRow a)).filter (fun r => p r.1)).map (fun r => g r.1)).sum
        = ((s.filter p).map g).sum := by
  intro s
  induction s with
  | nil => simp
  | cons t s ih =>
    rw [List.flatMap_cons, List.filter_append, List.map_append, List.sum_append, ih]
    by_cases hp : p t
    · have h1 : (joinRow a t).filter (fun r => p r.1) = joinRow a t :=
        List.filter_eq_self.mpr (fun r hr => by rw [mem_joinRow_fst a t r hr]; exact hp)
      rw [h1, joinRow_map_fst_sum a t H1 g, List.filter_cons_of_pos hp,
        List.map_cons, List.sum_cons]
    · have h1 : (joinRow a t).filter (fun r => p r.1) = [] :=
        List.filter_eq_nil_iff.mpr
          (fun r hr => by rw [mem_joinRow_fst a t r hr]; simp [hp])
      rw [h1, List.filter_cons_of_neg hp]
      simp

/-- The six fixed column sums of a grouped row add up to the summed
per-row contributions of its group. -/
lemma sixSum_mkRow (j : List (StatusRow × Option Int)) (k : Int × Option Int) :
    sixSum (mkRow j k)
      = ((j.filter (fun r => decide (keyOf r = k))).map (fun r => contrib r.1)).sum := by
  simp only [mkRow, sixSum, colSum]
  rw [← sum_map_add_split, ← sum_map_add_split, ← sum_map_add_split,
    ← sum_map_add_split, ← sum_map_add_split]
  simp only [contrib]

lemma organizedView_perm (s : List StatusRow) (a : List AuthRow) :
    List.Perm (organizedView s a)
      ((groupKeys (joinedOf s a)).map (mkRow (joinedOf s a))) :=
  List.perm_insertionSort rowLE _

/-- A status value among the six fixed ones contributes exactly its count. -/
lemma contrib_eq (t : StatusRow) (h : t.status ∈ fixedStatuses) :
    contrib t = t.count := by
  simp only [fixedStatuses, List.mem_cons, List.not_mem_nil, or_false] at h
  rcases h with h | h | h | h | h | h <;> simp [contrib, h]

/-- C2 (amended): provided every status value is one of the six fixed
statuses and the auth source has at most one code-00 row per timestamp, the
sum of the six fixed status columns over the organized rows at timestamp τ
equals the sum of all raw status counts at τ. -/
theorem organized_six_col_sum_eq_raw (s : List StatusRow) (a : List AuthRow) (τ : Int)
    (H1 : ((a00Of a).map Prod.fst).Nodup)
    (H2 : ∀ t ∈ s, t.status ∈ fixedStatuses) :
    (((organizedView s a).filter (fun r => decide (r.ts = τ))).map sixSum).sum
      = ((s.filter (fun t => decide (t.ts = τ))).map (fun t => t.count)).sum := by
  have hperm :
      (((organizedView s a).filter (fun r => decide (r.ts = τ))).map sixSum).sum
        = ((((groupKeys (joinedOf s a)).map (mkRow (joinedOf s a))).filter
            (fun r => decide (r.ts = τ))).map sixSum).sum :=
    (((organizedView_perm s a).filter _).map _).sum_eq
  rw [hperm, List.filter_map, List.map_map]
  have hpred : ((fun r : OrganizedRow => decide (r.ts = τ)) ∘ mkRow (joinedOf s a))
      = (fun k : Int × Option Int => decide (k.1 = τ)) := rfl
  rw [hpred]
  have hgrp : ∀ k ∈ (groupKeys (joinedOf s a)).filter (fun k => decide (k.1 = τ)),
      (sixSum ∘ mkRow (joinedOf s a)) k
        = ((((joinedOf s a).filter (fun r => decide (r.1.ts = τ))).filter
            (fun r => decide (keyOf r = k))).map (fun r => contrib r.1)).sum := by
    intro k hk
    have hkτ : k.1 = τ := by
      have := (List.mem_filter.mp hk).2
      simpa using this
    show sixSum (mkRow (joinedOf s a) k) = _
    rw [sixSum_mkRow]
    rw [List.filter_filter]
    apply congrArg List.sum
    apply congrArg (List.map _)
    apply List.filter_congr
    intro r _
    by_cases h : keyOf r = k
    · have hts : r.1.ts = τ := by
        have h1 : (keyOf r).1 = k.1 := congrArg Prod.fst h
        rw [hkτ] at h1
        exact h1
      simp [h, hts]
    · simp [h]
  rw [List.map_congr_left hgrp]
  have hnd : ((groupKeys (joinedOf s a)).filter
      (fun k => decide (k.1 = τ))).Nodup :=
    List.Nodup.filter _ (List.nodup_dedup _)
  have hcov : ∀ r ∈ (joinedOf s a).filter (fun r => decide (r.1.ts = τ)),
      keyOf r ∈ (groupKeys (joinedOf s a)).filter (fun k => decide (k.1 = τ)) := by
    intro r hr
    rw [List.mem_filter] at hr ⊢
    refine ⟨?_, ?_⟩
    · show keyOf r ∈ ((joinedOf s a).map keyOf).dedup
      rw [List.mem_dedup]
      exact List.mem_map_of_mem keyOf hr.1
    · have : r.1.ts = τ := by simpa using hr.2
      simpa [keyOf] using this
  rw [sum_keyGroups ((joinedOf s a).filter (fun r => decide (r.1.ts = τ)))
    keyOf (fun r => contrib r.1) _ hnd hcov]
  have hjoin := flatMap_filter_sum a H1 contrib (fun t => decide (t.ts = τ)) s
  have hlast : ((s.filter (fun t => decide (t.ts = τ))).map contrib).sum
      = ((s.filter (fun t => decide (t.ts = τ))).map (fun t => t.count)).sum := by
    apply congrArg List.sum
    apply List.map_congr_left
    intro t ht
    exact contrib_eq t (H2 t (List.mem_of_mem_filter ht))
  exact hjoin.trans hlast

/-- The a00 subseries filtered to one timestamp is the raw code-00 rows at
that timestamp, as (ts, count) pairs. -/
lemma a00_filter_eq (a : List AuthRow) (c : Int) :
    (a00Of a).filter (fun p => decide (p.1 = c))
      = (auth00At a c).map (fun x => (x.ts, x.count)) := by
  simp only [a00Of, auth00At]
  rw [List.filter_map]
  apply congrArg (List.map _)
  rw [List.filter_filter]
  apply List.filter_congr
  intro x _
  show (decide (x.ts = c) && decide (x.auth_code = "00"))
      = decide (x.auth_code = "00" ∧ x.ts = c)
  by_cases h1 : x.ts = c <;> by_cases h2 : x.auth_code = "00" <;> simp [h1, h2]

/-- Under at most one a00 row per timestamp, the joined NULL-or-value on a
status row at timestamp `t.ts` is absent exactly when no raw code-00 row
exists there, and otherwise carries the (singleton) sum of their counts. -/
lemma joinRow_snd (a : List AuthRow) (t : StatusRow)
    (H1 : ((a00Of a).map Prod.fst).Nodup) :
    ∀ q ∈ joinRow a t,
      q.2 = if auth00At a t.ts = [] then none
            else some (((auth00At a t.ts).map (fun x => x.count)).sum) := by
  intro q hq
  have hm := a00_filter_eq a t.ts
  simp only [joinRow] at hq
  rcases hA : auth00At a t.ts with _ | ⟨x, xs⟩
  · rw [hA] at hm
    simp only [List.map_nil] at hm
    rw [hm] at hq
    simp at hq
    rw [hq]
    simp
  · have hlen := filter_length_le_one (a00Of a) Prod.fst H1 t.ts
    rw [hm, hA] at hlen
    have hxs : xs = [] := by
      cases xs with
      | nil => rfl
      | cons y ys => simp at hlen
    subst hxs
    rw [hm, hA] at hq
    simp at hq
    rw [hq]
    simp

/-- C1 (amended): every organized row's timestamp is the timestamp of some
status row — timestamps present only in the auth-code-00 series are not
emitted, since the organized query joins a00 onto the status side. -/
theorem organized_ts_subset_status (s : List StatusRow) (a : List AuthRow) :
    ∀ r ∈ organizedView s a, ∃ t ∈ s, t.ts = r.ts := by
  intro r hr
  have hr' := (organizedView_perm s a).mem_iff.mp hr
  obtain ⟨k, hk, hrk⟩ := List.mem_map.mp hr'
  obtain ⟨q, hq, hqk⟩ := List.mem_map.mp (List.mem_dedup.mp hk)
  obtain ⟨t, ht, hqt⟩ := List.mem_flatMap.mp hq
  refine ⟨t, ht, ?_⟩
  rw [← hrk]
  show t.ts = k.1
  rw [← hqk]
  show t.ts = q.1.ts
  rw [mem_joinRow_fst a t q hqt]

/-- C1 witness: the amended theorem applied at a concrete input. -/
theorem organized_ts_subset_status_witness :
    ∃ t ∈ ([⟨5, "approved", 2⟩] : List StatusRow), t.ts = 5 :=
  organized_ts_subset_status [⟨5, "approved", 2⟩] []
    ⟨5, 2, 0, 0, 0, 0, 0, none⟩ (by decide)

/-- C1 counterexample: an auth-only timestamp yields no organized row at
all — the organized view of an empty status table is empty even though the
auth table has a code-00 row at timestamp 1. -/
theorem auth_only_ts_not_emitted :
    organizedView [] [⟨1, "00", 5⟩] = [] := by decide

/-- C3 (amended): when the auth source has at most one code-00 row per
timestamp, each organized row carries `auth_00_count = none` exactly when no
raw code-00 row exists at its timestamp, and otherwise the (singleton) sum
of those counts.  Duplicate code-00 timestamps are NOT summed by the code:
they fan out into several organized rows. -/
theorem organized_auth00_lookup (s : List StatusRow) (a : List AuthRow)
    (H1 : ((a00Of a).map Prod.fst).Nodup) :
    ∀ r ∈ organizedView s a,
      r.auth_00_count
        = if auth00At a r.ts = [] then none
          else some (((auth00At a r.ts).map (fun x => x.count)).sum) := by
  intro r hr
  have hr' := (organizedView_perm s a).mem_iff.mp hr
  obtain ⟨k, hk, hrk⟩ := List.mem_map.mp hr'
  obtain ⟨q, hq, hqk⟩ := List.mem_map.mp (List.mem_dedup.mp hk)
  obtain ⟨t, ht, hqt⟩ := List.mem_flatMap.mp hq
  have hq1 : q.1 = t := mem_joinRow_fst a t q hqt
  have hsnd := joinRow_snd a t H1 q hqt
  rw [← hrk]
  show k.2 = if auth00At a k.1 = [] then none
      else some (((auth00At a k.1).map (fun x => x.count)).sum)
  rw [← hqk]
  show q.2 = if auth00At a q.1.ts = [] then none
      else some (((auth00At a q.1.ts).map (fun x => x.count)).sum)
  rw [hq1]
  exact hsnd

/-- C3 witness: the amended theorem applied at a concrete input. -/
theorem organized_auth00_lookup_witness :
    (⟨5, 2, 0, 0, 0, 0, 0, some 9⟩ : OrganizedRow).auth_00_count
      = if auth00At [⟨5, "00", 9⟩] 5 = [] then none
        else some (((auth00At [⟨5, "00", 9⟩] 5).map (fun x => x.count)).sum) :=
  organized_auth00_lookup [⟨5, "approved", 2⟩] [⟨5, "00", 9⟩] (by decide)
    ⟨5, 2, 0, 0, 0, 0, 0, some 9⟩ (by decide)

/-- C3 counterexample: with two raw code-00 rows (counts 5 and 7) at
timestamp 1, no organized row at timestamp 1 carries their sum 12; the rows
carry the individual counts instead. -/
theorem dup_auth00_not_summed :
    (∃ r ∈ organizedView [⟨1, "approved", 1⟩] [⟨1, "00", 5⟩, ⟨1, "00", 7⟩],
        r.ts = 1 ∧ r.auth_00_count ≠ some 12)
    ∧ ((([⟨1, "00", 5⟩, ⟨1, "00", 7⟩] : List AuthRow).filter
        (fun x => decide (x.auth_code = "00" ∧ x.ts = 1))).map
          (fun x => x.count)).sum = 12 := by decide

/-- C2 witness: the amended theorem applied at a concrete input. -/
theorem organized_six_col_sum_eq_raw_witness :
    (((organizedView [⟨0, "approved", 3⟩] []).filter
        (fun r => decide (r.ts = 0))).map sixSum).sum
      = ((([⟨0, "approved", 3⟩] : List StatusRow).filter
          (fun t => decide (t.ts = 0))).map (fun t => t.count)).sum :=
  organized_six_col_sum_eq_raw [⟨0, "approved", 3⟩] [] 0 (by decide) (by decide)

/-- C2 counterexample: a status value outside the six fixed ones
(here "weird") contributes to no organized column, so the six-column sum at
its timestamp is 0 while the raw count sum is 5. -/
theorem six_col_sum_misses_unknown_status :
    (((organizedView [⟨1, "weird", 5⟩] []).filter
        (fun r => decide (r.ts = 1))).map sixSum).sum = 0
    ∧ ((([⟨1, "weird", 5⟩] : List StatusRow).filter
        (fun t => decide (t.ts = 1))).map (fun t => t.count)).sum = 5 := by decide

/-- C4 (amended): the organized rows are sorted ascending by timestamp, and
there is at most one row per distinct (timestamp, auth_00_count) group key —
but not necessarily one per timestamp alone. -/
theorem organized_sorted_and_key_unique (s : List StatusRow) (a : List AuthRow) :
    ((organizedView s a).map (fun r => (r.ts, r.auth_00_count))).Nodup
    ∧ (organizedView s a).Sorted rowLE := by
  constructor
  · have hperm : List.Perm
        ((organizedView s a).map (fun r => (r.ts, r.auth_00_count)))
        (((groupKeys (joinedOf s a)).map (mkRow (joinedOf s a))).map
          (fun r => (r.ts, r.auth_00_count))) :=
      (organizedView_perm s a).map _
    rw [hperm.nodup_iff, List.map_map]
    have hid : ((fun r : OrganizedRow => (r.ts, r.auth_00_count))
        ∘ mkRow (joinedOf s a)) = id := by
      funext k
      rfl
    rw [hid, List.map_id]
    exact List.nodup_dedup _
  · exact List.sorted_insertionSort rowLE _

/-- C4 counterexample: two code-00 rows with different counts at the same
timestamp produce two organized rows with the same timestamp, violating
one-row-per-timestamp. -/
theorem dup_ts_rows_exist :
    ¬ ((organizedView [⟨1, "approved", 1⟩] [⟨1, "00", 5⟩, ⟨1, "00", 7⟩]).map
        (fun r => r.ts)).Nodup := by decide

/-! ### Maximum-timestamp helpers -/

lemma foldl_max_le_self (xs : List Int) (acc : Int) : acc ≤ xs.foldl max acc := by
  induction xs generalizing acc with
  | nil => exact le_refl acc
  | cons y ys ih => exact le_trans (le_max_left acc y) (ih (max acc y))

lemma foldl_max_le_of_mem (xs : List Int) (acc : Int) :
    ∀ x ∈ xs, x ≤ xs.foldl max acc := by
  induction xs generalizing acc with
  | nil => intro x hx; cases hx
  | cons y ys ih =>
    intro x hx
    rw [List.foldl_cons]
    rcases List.mem_cons.mp hx with h | h
    · rw [h]
      exact le_trans (le_max_right acc y) (foldl_max_le_self ys (max acc y))
    · exact ih (max acc y) x h

lemma foldl_max_mem (xs : List Int) (acc : Int) :
    xs.foldl max acc = acc ∨ xs.foldl max acc ∈ xs := by
  induction xs generalizing acc with
  | nil => exact Or.inl rfl
  | cons y ys ih =>
    rcases ih (max acc y) with h | h
    · rcases max_choice acc y with hm | hm
      · exact Or.inl (by rw [List.foldl_cons, h, hm])
      · exact Or.inr (by rw [List.foldl_cons, h, hm]; exact List.mem_cons_self y ys)
    · exact Or.inr (List.mem_cons_of_mem y h)

lemma le_tsMaxD (l : List Int) : ∀ x ∈ l, x ≤ tsMaxD l := by
  intro x hx
  cases l with
  | nil => cases hx
  | cons y ys =>
    show x ≤ ys.foldl max y
    rcases List.mem_cons.mp hx with h | h
    · exact h ▸ foldl_max_le_self ys y
    · exact foldl_max_le_of_mem ys y x h

lemma tsMaxD_mem (l : List Int) (h : l ≠ []) : tsMaxD l ∈ l := by
  cases l with
  | nil => exact absurd rfl h
  | cons y ys =>
    show ys.foldl max y ∈ y :: ys
    rcases foldl_max_mem ys y with h1 | h1
    · rw [h1]; exact List.mem_cons_self y ys
    · exact List.mem_cons_of_mem y h1

/-- C6: for non-empty sources and a bounded selector of duration `d`, the
window filter restricts each of the three tables to rows with
`start_ts ≤ ts` where `start_ts = max_ts − d` and `max_ts` is the maximum
timestamp across both source tables (it bounds every row and is attained);
membership in the output is exactly `start_ts ≤ ts`, with no upper bound. -/
theorem window_filter_correct (tb : Tables) (w : WindowChoice) (d : Int)
    (hd : windowDuration w = some d)
    (hs : tb.df_status ≠ []) (ha : tb.df_auth ≠ []) :
    applyWindow w tb
      = ⟨tb.df_status.filter
            (fun r => decide (maxTsOf tb.df_status tb.df_auth - d ≤ r.ts)),
          tb.df_auth.filter
            (fun r => decide (maxTsOf tb.df_status tb.df_auth - d ≤ r.ts)),
          tb.organized_df.filter
            (fun r => decide (maxTsOf tb.df_status tb.df_auth - d ≤ r.ts))⟩
    ∧ (∀ r ∈ tb.df_status, r.ts ≤ maxTsOf tb.df_status tb.df_auth)
    ∧ (∀ r ∈ tb.df_auth, r.ts ≤ maxTsOf tb.df_status tb.df_auth)
    ∧ (maxTsOf tb.df_status tb.df_auth ∈ tb.df_status.map (fun r => r.ts)
        ∨ maxTsOf tb.df_status tb.df_auth ∈ tb.df_auth.map (fun r => r.ts))
    ∧ (∀ r ∈ tb.df_status,
        (r ∈ (applyWindow w tb).df_status
          ↔ maxTsOf tb.df_status tb.df_auth - d ≤ r.ts))
    ∧ (∀ r ∈ tb.df_auth,
        (r ∈ (applyWindow w tb).df_auth
          ↔ maxTsOf tb.df_status tb.df_auth - d ≤ r.ts))
    ∧ (∀ r ∈ tb.organized_df,
        (r ∈ (applyWindow w tb).organized_df
          ↔ maxTsOf tb.df_status tb.df_auth - d ≤ r.ts)) := by
  have hEq : applyWindow w tb
      = ⟨tb.df_status.filter
            (fun r => decide (maxTsOf tb.df_status tb.df_auth - d ≤ r.ts)),
          tb.df_auth.filter
            (fun r => decide (maxTsOf tb.df_status tb.df_auth - d ≤ r.ts)),
          tb.organized_df.filter
            (fun r => decide (maxTsOf tb.df_status tb.df_auth - d ≤ r.ts))⟩ := by
    unfold applyWindow
    rw [hd]
  refine ⟨hEq, ?_, ?_, ?_, ?_, ?_, ?_⟩
  · intro r hr
    exact le_trans
      (le_tsMaxD (tb.df_status.map (fun r => r.ts)) r.ts
        (List.mem_map_of_mem _ hr))
      (le_max_left _ _)
  · intro r hr
    exact le_trans
      (le_tsMaxD (tb.df_auth.map (fun r => r.ts)) r.ts
        (List.mem_map_of_mem _ hr))
      (le_max_right _ _)
  · rcases max_choice (tsMaxD (tb.df_status.map (fun r => r.ts)))
        (tsMaxD (tb.df_auth.map (fun r => r.ts))) with hm | hm
    · refine Or.inl ?_
      show maxTsOf tb.df_status tb.df_auth ∈ tb.df_status.map (fun r => r.ts)
      rw [maxTsOf, hm]
      exact tsMaxD_mem _ (by simpa using hs)
    · refine Or.inr ?_
      show maxTsOf tb.df_status tb.df_auth ∈ tb.df_auth.map (fun r => r.ts)
      rw [maxTsOf, hm]
      exact tsMaxD_mem _ (by simpa using ha)
  · intro r hr
    rw [hEq]
    simp [List.mem_filter, hr]
  · intro r hr
    rw [hEq]
    simp [List.mem_filter, hr]
  · intro r hr
    rw [hEq]
    simp [List.mem_filter, hr]

/-- C6 witness: the theorem applied to a concrete two-row table with the
15-minute selector. -/
theorem window_filter_correct_witness :
    applyWindow .m15 ⟨[⟨1000, "approved", 1⟩], [⟨100, "00", 2⟩], []⟩
      = ⟨[⟨1000, "approved", 1⟩].filter
            (fun r => decide (maxTsOf [⟨1000, "approved", 1⟩] [⟨100, "00", 2⟩] - 900 ≤ r.ts)),
          [⟨100, "00", 2⟩].filter
            (fun r => decide (maxTsOf [⟨1000, "approved", 1⟩] [⟨100, "00", 2⟩] - 900 ≤ r.ts)),
          ([] : List OrganizedRow).filter
            (fun r => decide (maxTsOf [⟨1000, "approved", 1⟩] [⟨100, "00", 2⟩] - 900 ≤ r.ts))⟩ :=
  (window_filter_correct ⟨[⟨1000, "approved", 1⟩], [⟨100, "00", 2⟩], []⟩ .m15 900
    rfl (by decide) (by decide)).1

/-- C7: if either source table is empty after loading, the pipeline
short-circuits to the no-data state before any windowing. -/
theorem empty_source_no_data (w : WindowChoice) (tb : Tables)
    (h : tb.df_status = [] ∨ tb.df_auth = []) :
    pipelineWindow w tb = none := by
  unfold pipelineWindow
  rcases h with h | h <;> rw [h] <;> simp

/-- C7 witness: an empty status source with a non-empty auth source yields
the no-data state. -/
theorem empty_source_no_data_witness :
    pipelineWindow .h1 ⟨[], [⟨0, "00", 1⟩], []⟩ = none :=
  empty_source_no_data .h1 ⟨[], [⟨0, "00", 1⟩], []⟩ (Or.inl rfl)

/-- C10: the window filter only removes whole rows — each output table is a
sublist of its input table (kept rows are unchanged input rows, in order) —
and the unbounded selector passes all three tables through unchanged. -/
theorem window_filter_frame (w : WindowChoice) (tb : Tables) :
    List.Sublist (applyWindow w tb).df_status tb.df_status
    ∧ List.Sublist (applyWindow w tb).df_auth tb.df_auth
    ∧ List.Sublist (applyWindow w tb).organized_df tb.organized_df
    ∧ applyWindow .all tb = tb := by
  cases w with
  | m15 => exact ⟨List.filter_sublist _, List.filter_sublist _, List.filter_sublist _, rfl⟩
  | h1 => exact ⟨List.filter_sublist _, List.filter_sublist _, List.filter_sublist _, rfl⟩
  | h6 => exact ⟨List.filter_sublist _, List.filter_sublist _, List.filter_sublist _, rfl⟩
  | all => exact ⟨List.Sublist.refl _, List.Sublist.refl _, List.Sublist.refl _, rfl⟩

/-- C5: after a first cached call at time `t₁`, a second call within the TTL
with the same source identity returns the identical payload and does not run
the reader; once the age reaches the TTL, the expired entry is not served —
the reader runs again and the result is stored with `computed_at = t₂`. -/
theorem cache_ttl_behavior (reader : Unit → Tables) (key : String × String)
    (ttl t₁ t₂ : Int) :
    ((get_or_compute ttl t₁ key reader none).readerRan = true)
    ∧ (t₂ - t₁ < ttl →
        get_or_compute ttl t₂ key reader
            (get_or_compute ttl t₁ key reader none).state
          = ⟨(get_or_compute ttl t₁ key reader none).payload,
              (get_or_compute ttl t₁ key reader none).state, false⟩)
    ∧ (ttl ≤ t₂ - t₁ →
        get_or_compute ttl t₂ key reader
            (get_or_compute ttl t₁ key reader none).state
          = ⟨reader (), some ⟨key, t₂, reader ()⟩, true⟩) := by
  refine ⟨rfl, ?_, ?_⟩
  · intro h
    show get_or_compute ttl t₂ key reader (some ⟨key, t₁, reader ()⟩)
        = ⟨reader (), some ⟨key, t₁, reader ()⟩, false⟩
    simp [get_or_compute, h]
  · intro h
    show get_or_compute ttl t₂ key reader (some ⟨key, t₁, reader ()⟩)
        = ⟨reader (), some ⟨key, t₂, reader ()⟩, true⟩
    simp [get_or_compute, not_lt.mpr h]

/-- C5 witness: both branches of the cache theorem at concrete times
(ttl 5; second call at age 3, third at age 7). -/
theorem cache_ttl_behavior_witness :
    (get_or_compute 5 3 ("a", "b") (fun _ => ⟨[], [], []⟩)
        (get_or_compute 5 0 ("a", "b") (fun _ => ⟨[], [], []⟩) none).state
      = ⟨(get_or_compute 5 0 ("a", "b") (fun _ => ⟨[], [], []⟩) none).payload,
          (get_or_compute 5 0 ("a", "b") (fun _ => ⟨[], [], []⟩) none).state,
          false⟩)
    ∧ (get_or_compute 5 7 ("a", "b") (fun _ => ⟨[], [], []⟩)
        (get_or_compute 5 0 ("a", "b") (fun _ => ⟨[], [], []⟩) none).state
      = ⟨(fun _ => (⟨[], [], []⟩ : Tables)) (),
          some ⟨("a", "b"), 7, (fun _ => (⟨[], [], []⟩ : Tables)) ()⟩, true⟩) :=
  ⟨(cache_ttl_behavior (fun _ => ⟨[], [], []⟩) ("a", "b") 5 0 3).2.1 (by decide),
    (cache_ttl_behavior (fun _ => ⟨[], [], []⟩) ("a", "b") 5 0 7).2.2 (by decide)⟩

/-- C8 (amended): a row whose timestamp or count cell fails its cast makes
the whole load fail with a parse error (strict policy), while a
syntactically well-formed integer count — including a negative one — is
accepted as-is: the BIGINT cast does not check sign. -/
theorem loader_strict_on_malformed :
    (∀ rows : List RawStatusRow, ∀ r ∈ rows,
        ((∃ e, castTimestamp r.timestamp = .error e)
          ∨ (∃ e, castBigint r.count = .error e)) →
        ∃ e, load_status rows = .error e)
    ∧ (∀ (t : Int) (st : String) (n : Int),
        parseStatusRow ⟨.timestampLit t, st, .intLit n⟩ = .ok ⟨t, st, n⟩) := by
  constructor
  · intro rows
    induction rows with
    | nil => intro r hr; cases hr
    | cons a rs ih =>
      intro r hr hbad
      rcases List.mem_cons.mp hr with h | h
      · subst h
        have hperr : ∃ e, parseStatusRow r = .error e := by
          rcases hbad with ⟨e, he⟩ | ⟨e, he⟩
          · exact ⟨e, by unfold parseStatusRow; rw [he]; rfl⟩
          · cases hts : castTimestamp r.timestamp with
            | error e2 => exact ⟨e2, by unfold parseStatusRow; rw [hts]; rfl⟩
            | ok ts => exact ⟨e, by unfold parseStatusRow; rw [hts, he]; rfl⟩
        obtain ⟨e, he⟩ := hperr
        exact ⟨e, by unfold load_status; rw [he]; rfl⟩
      · cases hp : parseStatusRow a with
        | error e => exact ⟨e, by unfold load_status; rw [hp]; rfl⟩
        | ok row =>
          obtain ⟨e, he⟩ := ih r h hbad
          exact ⟨e, by unfold load_status; rw [hp, he]; rfl⟩
  · intro t st n
    rfl

/-- C8 witness: a malformed timestamp fails the whole load; a negative
count row parses successfully. -/
theorem loader_strict_on_malformed_witness :
    (∃ e, load_status [⟨.malformed "xx", "approved", .intLit 3⟩] = .error e)
    ∧ parseStatusRow ⟨.timestampLit 0, "approved", .intLit (-5)⟩
        = .ok ⟨0, "approved", -5⟩ :=
  ⟨loader_strict_on_malformed.1 [⟨.malformed "xx", "approved", .intLit 3⟩]
      ⟨.malformed "xx", "approved", .intLit 3⟩ (by decide)
      (Or.inl ⟨"ParseError: cannot cast to TIMESTAMP", rfl⟩),
    loader_strict_on_malformed.2 0 "approved" (-5)⟩

/-- C8 counterexample: a negative count is not rejected — the load
succeeds and keeps the value -5. -/
theorem negative_count_accepted :
    load_status [⟨.timestampLit 0, "approved", .intLit (-5)⟩]
      = .ok [⟨0, "approved", -5⟩] := rfl

/-- C9 (amended): the approval-rate KPI is guarded — exactly 0 when the
total count is 0 (no division is performed) — and otherwise equals
`approved_total / total_tx * 100`, i.e. the ratio expressed in percent. -/
theorem approval_rate_guarded (s : List StatusRow) :
    (total_tx s = 0 → approval_rate s = 0)
    ∧ (total_tx s ≠ 0 →
        approval_rate s = (approved_total s : ℚ) / (total_tx s : ℚ) * 100) := by
  constructor
  · intro h
    unfold approval_rate
    rw [if_neg (by simp [h])]
  · intro h
    unfold approval_rate
    rw [if_pos h]

/-- C9 witness: both branches of the guard at concrete inputs. -/
theorem approval_rate_guarded_witness :
    approval_rate [] = 0
    ∧ approval_rate [⟨0, "approved", 1⟩]
        = (approved_total [⟨0, "approved", 1⟩] : ℚ)
            / (total_tx [⟨0, "approved", 1⟩] : ℚ) * 100 :=
  ⟨(approval_rate_guarded []).1 rfl,
    (approval_rate_guarded [⟨0, "approved", 1⟩]).2 (by decide)⟩

/-- C9 counterexample: with 1 approved of 2 total, the KPI value is 50
(a percentage), not the ratio 1/2 the claim states. -/
theorem approval_rate_is_percent :
    approval_rate [⟨0, "approved", 1⟩, ⟨0, "denied", 1⟩] = 50
    ∧ (approved_total [⟨0, "approved", 1⟩, ⟨0, "denied", 1⟩] : ℚ)
        / (total_tx [⟨0, "approved", 1⟩, ⟨0, "denied", 1⟩] : ℚ) = 1 / 2
    ∧ approval_rate [⟨0, "approved", 1⟩, ⟨0, "denied", 1⟩]
        ≠ (approved_total [⟨0, "approved", 1⟩, ⟨0, "denied", 1⟩] : ℚ)
            / (total_tx [⟨0, "approved", 1⟩, ⟨0, "denied", 1⟩] : ℚ) := by
  have h1 : total_tx [⟨0, "approved", 1⟩, ⟨0, "denied", 1⟩] = 2 := rfl
  have h2 : approved_total [⟨0, "approved", 1⟩, ⟨0, "denied", 1⟩] = 1 := rfl
  refine ⟨?_, ?_, ?_⟩
  · unfold approval_rate
    rw [h1, h2]
    norm_num
  · rw [h1, h2]
    norm_num
  · unfold approval_rate
    rw [h1, h2]
    norm_num

end TxDashboard
